import Mathlib

/-!
Verification development for the flarecert certificate manager.

The Go sources are embedded shallowly: file contents are lists of
characters, filesystem and provider interactions are explicit state
passing plus an effect trace, and fallible external calls (the ACME
issuance service, the Cloudflare API) are oracle parameters whose
`none`/`false` values model the corresponding error returns.
-/

set_option autoImplicit false

namespace Flarecert

/-- Bytes of a file, modelled as a list of characters. -/
abbrev Bytes := List Char

/-- Whitespace recognised by the TrimSpace step (ASCII whitespace,
which covers the characters occurring around PEM data). -/
def isSpaceChar (c : Char) : Bool :=
  c = ' ' || c = '\t' || c = '\n' || c = '\r' || c = Char.ofNat 11 || c = Char.ofNat 12

/-- Trim leading and trailing whitespace, as strings.TrimSpace does. -/
def trimSpace (l : Bytes) : Bytes :=
  ((l.dropWhile isSpaceChar).reverse.dropWhile isSpaceChar).reverse

/-- Chain bytes computed by Manager.saveCertificateFiles
(src/internal/certificate/manager.go lines 206-210): the issuer
certificate is trimmed of surrounding whitespace and, when the result is
nonempty and does not already end in a newline, a single newline is
appended. -/
def trimmedIssuerCert (issuer : Bytes) : Bytes :=
  let t := trimSpace issuer
  if t ≠ [] ∧ t.getLast? ≠ some '\n' then t ++ ['\n'] else t

/-- Contents of the four primary files written for one issuance. -/
structure SavedFiles where
  cert : Bytes
  key : Bytes
  chain : Bytes
  fullchain : Bytes
deriving DecidableEq

/-- Manager.saveCertificateFiles (src/internal/certificate/manager.go
lines 205-229): cert.pem and privkey.pem receive the raw leaf and key
bytes, chain.pem receives the trimmed issuer bytes, and fullchain.pem
receives the leaf bytes followed by the raw (untrimmed) issuer bytes. -/
def saveCertificateFiles (certificate privateKey issuerCertificate : Bytes) : SavedFiles :=
  { cert := certificate
    key := privateKey
    chain := trimmedIssuerCert issuerCertificate
    fullchain := certificate ++ issuerCertificate }

/-- Normalisation applied to each domain by DomainsMatch:
strings.ToLower of strings.TrimSpace. -/
def normalizeDomain (d : Bytes) : Bytes :=
  (trimSpace d).map Char.toLower

/-- Accumulate a domain into a duplicate-free list, keeping first
occurrences (the set built with a Go map). -/
def insertDistinct (acc : List Bytes) (d : Bytes) : List Bytes :=
  if acc.contains d then acc else acc ++ [d]

/-- De-duplicate a list of domains. -/
def distinctDomains (ds : List Bytes) : List Bytes :=
  ds.foldl insertDistinct []

/-- DomainsMatch (src/internal/certificate/manager.go lines 258-284):
normalise both lists into sets; the sets must have equal size and every
member of the first must occur in the second. -/
def DomainsMatch (domains1 domains2 : List Bytes) : Bool :=
  let set1 := distinctDomains (domains1.map normalizeDomain)
  let set2 := distinctDomains (domains2.map normalizeDomain)
  set1.length == set2.length && set1.all (fun d => set2.contains d)

/-- The action chosen by the renewal decision. -/
inductive CertificateAction where
  | skip
  | renew
  | replace
deriving DecidableEq

/-- Answers the operator would give to the three possible confirmation
prompts of determineAction. -/
structure PromptResponses where
  renewNow : Bool
  renewAnyway : Bool
  replace : Bool
deriving DecidableEq

/-- Days remaining before expiry as computed at
src/internal/certificate/manager.go line 161: hours divided by 24,
truncated toward zero; times are in seconds here. -/
def daysRemaining (expiresAt now : Int) : Int :=
  Int.tdiv (Int.tdiv (expiresAt - now) 3600) 24

/-- Manager.determineAction (src/internal/certificate/manager.go
lines 139-202). `certFileExists` is the os.Stat check on current/cert.pem,
`parsed` is the result of ParseCertificateInfo (`none` models a parse
failure), and the returned Bool records whether a confirmation prompt was
issued. -/
def determineAction (forceRenew : Bool) (certFileExists : Bool)
    (parsed : Option (List Bytes × Int)) (domains : List Bytes) (now : Int)
    (resp : PromptResponses) : CertificateAction × Bool :=
  if forceRenew then (CertificateAction.renew, false)
  else if !certFileExists then (CertificateAction.renew, false)
  else
    match parsed with
    | none => (CertificateAction.renew, false)
    | some (existingDomains, expiresAt) =>
      if DomainsMatch domains existingDomains then
        if expiresAt < now then (CertificateAction.renew, false)
        else if daysRemaining expiresAt now ≤ 30 then
          if resp.renewNow then (CertificateAction.renew, true)
          else (CertificateAction.skip, true)
        else
          if resp.renewAnyway then (CertificateAction.renew, true)
          else (CertificateAction.skip, true)
      else
        if resp.replace then (CertificateAction.replace, true)
        else (CertificateAction.skip, true)

/-- Contents of a slot's current/ directory. A file that is absent is
`none`; the cert.json metadata file is represented by the renewal counter
it stores (`none` when the file is absent or unreadable). -/
structure CurrentFiles where
  cert : Option Bytes
  key : Option Bytes
  chain : Option Bytes
  fullchain : Option Bytes
  info : Option Nat
deriving DecidableEq

/-- One file moved into a slot's archive/ directory. -/
inductive ArchivedFile where
  | cert (content : Bytes)
  | privkey (content : Bytes)
  | chain (content : Bytes)
  | fullchain (content : Bytes)
  | meta (count : Nat)
deriving DecidableEq

/-- On-disk state of one certificate slot. -/
structure SlotState where
  current : CurrentFiles
  archive : List ArchivedFile
deriving DecidableEq

/-- ArchiveOldCertificate (src/unnamed/part_001 lines 91-119): a no-op
when current/cert.pem is absent; otherwise each of the five current files
that exists is renamed into archive/ under a timestamped name, and files
that do not exist are skipped individually. -/
def archiveOldCertificate (s : SlotState) : SlotState :=
  match s.current.cert with
  | none => s
  | some certBytes =>
    let arch1 := s.archive ++ [ArchivedFile.cert certBytes]
    let arch2 := match s.current.key with
      | none => arch1
      | some b => arch1 ++ [ArchivedFile.privkey b]
    let arch3 := match s.current.chain with
      | none => arch2
      | some b => arch2 ++ [ArchivedFile.chain b]
    let arch4 := match s.current.fullchain with
      | none => arch3
      | some b => arch3 ++ [ArchivedFile.fullchain b]
    let arch5 := match s.current.info with
      | none => arch4
      | some c => arch4 ++ [ArchivedFile.meta c]
    { current := { cert := none, key := none, chain := none, fullchain := none, info := none }
      archive := arch5 }

/-- Result returned by the issuance service
(src/internal/acme/client.go lines 30-36). -/
structure CertificateResult where
  certificate : Bytes
  privateKey : Bytes
  issuerCertificate : Bytes
  notAfter : Int
deriving DecidableEq

/-- Steps of Manager.GenerateCertificate, in the order they were
performed, for stating ordering properties. -/
inductive GenEvent where
  | archived
  | obtainAttempted
  | filesWritten
  | metadataWritten
  | archiveCleaned
deriving DecidableEq

/-- Result of one run of Manager.GenerateCertificate: whether it returned
nil, the final slot state, and the trace of steps performed. -/
structure GenOutcome where
  ok : Bool
  state : SlotState
  events : List GenEvent
deriving DecidableEq

/-- Manager.GenerateCertificate (src/internal/certificate/manager.go
lines 48-127). Oracle parameters model the externals: `parsed` is the
ParseCertificateInfo result for the existing certificate, `resp` the
operator's prompt answers, `issuance` the ObtainCertificate result
(`none` models an issuance error), and `writeOk`, `metaOk`, `cleanupOk`
whether the primary file writes, the metadata write and the archive
cleanup succeed. A failed primary write is modelled as failing before any
of the four files is replaced. The metadata write stores renewal counter
0 unconditionally (line 251); UpdateRenewalCount is never invoked by this
flow. -/
def generateCertificate (s : SlotState) (forceRenew : Bool)
    (parsed : Option (List Bytes × Int)) (domains : List Bytes) (now : Int)
    (resp : PromptResponses) (issuance : Option CertificateResult)
    (writeOk metaOk cleanupOk : Bool) : GenOutcome :=
  let action := (determineAction forceRenew s.current.cert.isSome parsed domains now resp).1
  if action = CertificateAction.skip then
    { ok := true, state := s, events := [] }
  else
    let s1 := archiveOldCertificate s
    match issuance with
    | none =>
      { ok := false, state := s1, events := [GenEvent.archived, GenEvent.obtainAttempted] }
    | some cert =>
      if !writeOk then
        { ok := false, state := s1, events := [GenEvent.archived, GenEvent.obtainAttempted] }
      else
        let saved := saveCertificateFiles cert.certificate cert.privateKey cert.issuerCertificate
        let cur2 : CurrentFiles :=
          { cert := some saved.cert
            key := some saved.key
            chain := some saved.chain
            fullchain := some saved.fullchain
            info := s1.current.info }
        let s2 : SlotState := { s1 with current := cur2 }
        let s3 := if metaOk then { s2 with current := { s2.current with info := some 0 } } else s2
        let ev1 := [GenEvent.archived, GenEvent.obtainAttempted, GenEvent.filesWritten]
        let ev2 := if metaOk then ev1 ++ [GenEvent.metadataWritten] else ev1
        let ev3 := if cleanupOk then ev2 ++ [GenEvent.archiveCleaned] else ev2
        { ok := true, state := s3, events := ev3 }

/-- UpdateRenewalCount (src/unnamed/part_001 lines 262-271), as a
transformation of the metadata file state: an unreadable file is left as
it is (the function returns nil without writing), a readable counter is
written back incremented. -/
def updateRenewalCount (info : Option Nat) : Option Nat :=
  match info with
  | none => none
  | some c => some (c + 1)

/-- Zone information returned by the provider
(src/internal/acme/client.go lines 260-264). -/
structure ZoneInfo where
  id : Bytes
  name : Bytes
  status : Bytes
deriving DecidableEq

/-- Matching-zone filter of SelectZoneInteractive
(src/internal/acme/client.go lines 297-303): a zone is kept when the
domain has the zone name as a plain suffix, or equals it. -/
def matchingZones (zones : List ZoneInfo) (domain : Bytes) : List ZoneInfo :=
  match zones with
  | [] => []
  | z :: rest =>
    if z.name.isSuffixOf domain || domain == z.name then
      z :: matchingZones rest domain
    else matchingZones rest domain

/-- Modelled from the spec: the zone-keeping predicate as the
specification words it — the zone name equals the domain, or the domain
ends with the zone name as a dotted suffix. Stated separately so it can
be compared with the filter the code actually applies. -/
def specZoneMatches (domain : Bytes) (z : ZoneInfo) : Bool :=
  domain == z.name || ('.' :: z.name).isSuffixOf domain

/-- Split a domain into dot-separated labels, as strings.Split does
(an empty input yields one empty label). -/
def splitDots : Bytes → List Bytes
  | [] => [[]]
  | c :: rest =>
    if c = '.' then [] :: splitDots rest
    else
      match splitDots rest with
      | [] => [[c]]
      | p :: ps => (c :: p) :: ps

/-- Join labels with dots, as strings.Join with separator dot. -/
def joinDots : List Bytes → Bytes
  | [] => []
  | [p] => p
  | p :: q :: ps => p ++ '.' :: joinDots (q :: ps)

/-- Candidate zone names tried by getZoneIDAutomatic: labels[i:] joined
by dots, for i from 0 through len(labels)-2
(src/internal/acme/client.go lines 378-379). -/
def zoneCandidates (parts : List Bytes) : List Bytes :=
  (List.range (parts.length - 1)).map (fun i => joinDots (parts.drop i))

/-- The loop body of getZoneIDAutomatic: query each candidate in order
and return the first zone identifier found. A ListZones error is skipped
with continue, which behaves like an empty result, so the provider query
is modelled as a total function into zone lists. -/
def firstZoneMatch (listZones : Bytes → List ZoneInfo) : List Bytes → Option Bytes
  | [] => none
  | c :: rest =>
    match listZones c with
    | [] => firstZoneMatch listZones rest
    | z :: _ => some z.id

/-- getZoneIDAutomatic (src/internal/acme/client.go lines 369-395):
fewer than two labels is an invalid domain; otherwise the candidates are
tried most specific first and the first with at least one match wins. -/
def getZoneIDAutomatic (listZones : Bytes → List ZoneInfo) (domain : Bytes) : Option Bytes :=
  let parts := splitDots domain
  if parts.length < 2 then none
  else firstZoneMatch listZones (zoneCandidates parts)

/-- The challenge provider's in-memory token-to-record table
(the records map in src/internal/dns/cloudflare.go line 19). -/
abbrev RecordTable := List (Bytes × Bytes)

/-- Look a token up in the record table. -/
def lookupRecord : RecordTable → Bytes → Option Bytes
  | [], _ => none
  | (k, v) :: rest, token => if k == token then some v else lookupRecord rest token

/-- Map-style insert: replace the binding of the token when present,
append it otherwise. -/
def insertRecord : RecordTable → Bytes → Bytes → RecordTable
  | [], token, rid => [(token, rid)]
  | (k, v) :: rest, token, rid =>
    if k == token then (token, rid) :: rest
    else (k, v) :: insertRecord rest token rid

/-- Map-style delete of the token's binding. -/
def eraseRecord : RecordTable → Bytes → RecordTable
  | [], _ => []
  | (k, v) :: rest, token =>
    if k == token then rest else (k, v) :: eraseRecord rest token

/-- One Cloudflare API interaction performed by Present or CleanUp. Zone
resolution stands for the whole GetZoneIDForDomain exchange; a create
call carries the record identifier the provider assigned (`none` when
the call failed). -/
inductive ProviderCall where
  | zoneResolve (domain : Bytes)
  | createRecord (zoneID : Bytes) (result : Option Bytes)
  | deleteRecord (zoneID : Bytes) (recordID : Bytes)
deriving DecidableEq

/-- Result of one Present or CleanUp call: the Go error status, the
record table afterwards, and the provider calls that were made. -/
structure DNSOutcome where
  ok : Bool
  table : RecordTable
  calls : List ProviderCall
deriving DecidableEq

/-- Present (src/internal/dns/cloudflare.go lines 50-91): resolve the
owning zone, create the TXT record, then store the assigned record
identifier under the token, replacing any previous binding. `zoneRes` is
the GetZoneIDForDomain result and `createRes` the identifier assigned by
CreateDNSRecord, `none` modelling the respective failures. -/
def present (table : RecordTable) (domain token : Bytes)
    (zoneRes : Option Bytes) (createRes : Option Bytes) : DNSOutcome :=
  match zoneRes with
  | none => { ok := false, table := table, calls := [ProviderCall.zoneResolve domain] }
  | some zoneID =>
    match createRes with
    | none =>
      { ok := false, table := table
        calls := [ProviderCall.zoneResolve domain, ProviderCall.createRecord zoneID none] }
    | some rid =>
      { ok := true, table := insertRecord table token rid
        calls := [ProviderCall.zoneResolve domain,
                  ProviderCall.createRecord zoneID (some rid)] }

/-- CleanUp (src/internal/dns/cloudflare.go lines 92-127): a token with
no tracked record is a successful no-op before any provider call;
otherwise the zone is resolved again, the tracked record is deleted, and
on success the token's entry is removed from the table. -/
def cleanUp (table : RecordTable) (domain token : Bytes)
    (zoneRes : Option Bytes) (deleteOk : Bool) : DNSOutcome :=
  match lookupRecord table token with
  | none => { ok := true, table := table, calls := [] }
  | some recordID =>
    match zoneRes with
    | none => { ok := false, table := table, calls := [ProviderCall.zoneResolve domain] }
    | some zoneID =>
      if deleteOk then
        { ok := true, table := eraseRecord table token
          calls := [ProviderCall.zoneResolve domain,
                    ProviderCall.deleteRecord zoneID recordID] }
      else
        { ok := false, table := table
          calls := [ProviderCall.zoneResolve domain,
                    ProviderCall.deleteRecord zoneID recordID] }

/-- Prompt answers that decline every confirmation (the No/default
answer). -/
def respNone : PromptResponses :=
  { renewNow := false, renewAnyway := false, replace := false }

/-- Sample domain used in concrete runs. -/
def exampleCom : Bytes := "example.com".toList

/-- Sample subdomain zone name. -/
def subExampleCom : Bytes := "sub.example.com".toList

/-- Sample host under the subdomain zone. -/
def appSubExampleCom : Bytes := "app.sub.example.com".toList

/-- Unrelated domain that merely ends in the characters of
example.com. -/
def myExampleCom : Bytes := "myexample.com".toList

/-- Identifier of the example.com sample zone. -/
def zoneIdOne : Bytes := "z1".toList

/-- Identifier of the sub.example.com sample zone. -/
def zoneIdTwo : Bytes := "z2".toList

/-- Active status string. -/
def activeStatus : Bytes := "active".toList

/-- Sample zone record for example.com. -/
def exampleZone : ZoneInfo :=
  { id := zoneIdOne, name := exampleCom, status := activeStatus }

/-- Sample zone record for sub.example.com. -/
def subExampleZone : ZoneInfo :=
  { id := zoneIdTwo, name := subExampleCom, status := activeStatus }

/-- Exact-name zone listing of an account that holds exactly the zones
example.com and sub.example.com. -/
def twoZoneAccount (n : Bytes) : List ZoneInfo :=
  if n = subExampleCom then [subExampleZone]
  else if n = exampleCom then [exampleZone]
  else []

/-- Sample leaf certificate bytes. -/
def sampleLeaf : Bytes := "LEAF".toList

/-- Sample private key bytes. -/
def sampleKey : Bytes := "KEY".toList

/-- Sample issuer certificate bytes. -/
def sampleIssuer : Bytes := "ISSUER".toList

/-- Sample issuance service result. -/
def sampleIssuance : CertificateResult :=
  { certificate := sampleLeaf
    privateKey := sampleKey
    issuerCertificate := sampleIssuer
    notAfter := 100 }

/-- Slot with no files at all. -/
def emptySlot : SlotState :=
  { current := { cert := none, key := none, chain := none, fullchain := none, info := none }
    archive := [] }

/-- Slot whose current/ directory holds a certificate, key and metadata
from an earlier issuance. -/
def occupiedSlot : SlotState :=
  { current :=
      { cert := some sampleLeaf
        key := some sampleKey
        chain := none
        fullchain := none
        info := some 0 }
    archive := [] }

/-- Sample challenge token. -/
def sampleToken : Bytes := "token".toList

/-- Sample record identifier assigned on a first create call. -/
def recordIdOne : Bytes := "rid1".toList

/-- Sample record identifier assigned on a second create call. -/
def recordIdTwo : Bytes := "rid2".toList

/-- C5: when no certificate file exists in the slot's current/
directory, the renewal decision is Renew for every requested domain
list, for both values of the force flag, and no prompt is issued. -/
theorem determineAction_renews_when_no_certificate
    (forceRenew : Bool) (parsed : Option (List Bytes × Int))
    (domains : List Bytes) (now : Int) (resp : PromptResponses) :
    determineAction forceRenew false parsed domains now resp =
      (CertificateAction.renew, false) := by
  cases forceRenew <;> rfl

/-- C6: an existing certificate whose embedded domain set equals the
requested set and whose expiry lies strictly in the past yields the
decision Renew without any confirmation prompt. -/
theorem determineAction_renews_expired_without_prompt
    (forceRenew : Bool) (existingDomains : List Bytes) (expiresAt : Int)
    (domains : List Bytes) (now : Int) (resp : PromptResponses)
    (hmatch : DomainsMatch domains existingDomains = true)
    (hexp : expiresAt < now) :
    determineAction forceRenew true (some (existingDomains, expiresAt)) domains now resp =
      (CertificateAction.renew, false) := by
  cases forceRenew
  · simp [determineAction, hmatch, hexp]
  · rfl

/-- Witness for C6: a certificate for example.com expired one day ago is
renewed without a prompt. -/
theorem determineAction_renews_expired_without_prompt_witness :
    DomainsMatch [exampleCom] [exampleCom] = true ∧ (0 : Int) < 86400 ∧
    determineAction false true (some ([exampleCom], 0)) [exampleCom] 86400 respNone =
      (CertificateAction.renew, false) :=
  ⟨by decide, by decide,
    determineAction_renews_expired_without_prompt false [exampleCom] 0
      [exampleCom] 86400 respNone (by decide) (by decide)⟩

/-- C2 counterexample: when the issuer bytes carry surrounding
whitespace (here two trailing newlines), the bytes written to
fullchain.pem are not the concatenation of the cert.pem bytes and the
chain.pem bytes, because fullchain.pem appends the raw issuer bytes
while chain.pem receives the trimmed form. -/
theorem saveCertificateFiles_fullchain_not_cert_chain :
    ¬ ((saveCertificateFiles sampleLeaf sampleKey (sampleIssuer ++ ['\n', '\n'])).fullchain =
        (saveCertificateFiles sampleLeaf sampleKey (sampleIssuer ++ ['\n', '\n'])).cert ++
          (saveCertificateFiles sampleLeaf sampleKey (sampleIssuer ++ ['\n', '\n'])).chain) := by
  decide

/-- C2 amended: fullchain.pem is the byte-exact concatenation of the
cert.pem bytes and the raw issuer bytes, and it equals cert.pem followed
by chain.pem exactly when the issuer bytes already are whitespace-trimmed
with a single trailing newline. -/
theorem saveCertificateFiles_fullchain_raw_issuer
    (certificate privateKey issuerCertificate : Bytes) :
    (saveCertificateFiles certificate privateKey issuerCertificate).fullchain =
      certificate ++ issuerCertificate ∧
    ((saveCertificateFiles certificate privateKey issuerCertificate).fullchain =
        (saveCertificateFiles certificate privateKey issuerCertificate).cert ++
          (saveCertificateFiles certificate privateKey issuerCertificate).chain ↔
      issuerCertificate = trimmedIssuerCert issuerCertificate) := by
  refine ⟨rfl, ⟨fun h => List.append_cancel_left h, fun h => ?_⟩⟩
  show certificate ++ issuerCertificate = certificate ++ trimmedIssuerCert issuerCertificate
  exact congrArg (fun t => certificate ++ t) h

/-- Witness for the amended C2 at concrete file contents. -/
theorem saveCertificateFiles_fullchain_raw_issuer_witness :
    (saveCertificateFiles sampleLeaf sampleKey sampleIssuer).fullchain =
      sampleLeaf ++ sampleIssuer :=
  (saveCertificateFiles_fullchain_raw_issuer sampleLeaf sampleKey sampleIssuer).1

/-- C4 counterexample: the interactive filter keeps the zone example.com
for the unrelated domain myexample.com, although that zone name neither
equals the domain nor is a dotted suffix of it. -/
theorem matchingZones_keeps_non_dotted_suffix :
    matchingZones [exampleZone] myExampleCom = [exampleZone] ∧
    specZoneMatches myExampleCom exampleZone = false := by
  decide

/-- C4 amended: a zone is kept by the interactive fallback filter if and
only if the zone name equals the domain or the domain ends with the zone
name as a plain (not necessarily dotted) suffix. -/
theorem mem_matchingZones_iff (zones : List ZoneInfo) (domain : Bytes) (z : ZoneInfo) :
    z ∈ matchingZones zones domain ↔
      z ∈ zones ∧ (z.name.isSuffixOf domain || domain == z.name) = true := by
  induction zones with
  | nil => simp [matchingZones]
  | cons w rest ih =>
    cases hw : (w.name.isSuffixOf domain || domain == w.name) with
    | true =>
      simp only [matchingZones, hw, if_pos, List.mem_cons, ih]
      constructor
      · rintro (rfl | ⟨hz, hc⟩)
        · exact ⟨Or.inl rfl, hw⟩
        · exact ⟨Or.inr hz, hc⟩
      · rintro ⟨rfl | hz, hc⟩
        · exact Or.inl rfl
        · exact Or.inr ⟨hz, hc⟩
    | false =>
      simp only [matchingZones, hw, Bool.false_eq_true, if_false, List.mem_cons, ih]
      constructor
      · rintro ⟨hz, hc⟩
        exact ⟨Or.inr hz, hc⟩
      · rintro ⟨rfl | hz, hc⟩
        · exact absurd hc (by simp [hw])
        · exact ⟨hz, hc⟩

/-- Witness for the amended C4 at a concrete zone list and domain. -/
theorem mem_matchingZones_iff_witness :
    exampleZone ∈ matchingZones [exampleZone] myExampleCom :=
  (mem_matchingZones_iff [exampleZone] myExampleCom exampleZone).mpr (by decide)

/-- Splitting a domain always yields at least one label. -/
theorem splitDots_ne_nil (l : Bytes) : splitDots l ≠ [] := by
  cases l with
  | nil => simp [splitDots]
  | cons c rest =>
    simp only [splitDots]
    split
    · simp
    · split <;> simp

/-- Joining after prepending a character to the first label prepends it
to the joined result. -/
theorem joinDots_cons_cons (c : Char) (p : Bytes) (ps : List Bytes) :
    joinDots ((c :: p) :: ps) = c :: joinDots (p :: ps) := by
  cases ps <;> rfl

/-- Joining the dot-split labels of a domain restores the domain. -/
theorem joinDots_splitDots (l : Bytes) : joinDots (splitDots l) = l := by
  induction l with
  | nil => rfl
  | cons c rest ih =>
    by_cases hc : c = '.'
    · subst hc
      have h1 : splitDots ('.' :: rest) = [] :: splitDots rest := by
        simp [splitDots]
      rw [h1]
      cases h : splitDots rest with
      | nil => exact absurd h (splitDots_ne_nil rest)
      | cons p ps =>
        have h2 : joinDots ([] :: p :: ps) = '.' :: joinDots (p :: ps) := rfl
        rw [h2, ← h, ih]
    · cases h : splitDots rest with
      | nil => exact absurd h (splitDots_ne_nil rest)
      | cons p ps =>
        have h1 : splitDots (c :: rest) = (c :: p) :: ps := by
          simp [splitDots, hc, h]
        rw [h1, joinDots_cons_cons, ← h, ih]

/-- The getZoneIDAutomatic loop returns the identifier of the head zone
of the first candidate whose provider query yields a match. -/
theorem firstZoneMatch_of_first (listZones : Bytes → List ZoneInfo)
    (cands : List Bytes) (i : Nat) (c : Bytes) (z : ZoneInfo) (zs : List ZoneInfo)
    (hc : cands[i]? = some c)
    (hempty : ∀ j cj, j < i → cands[j]? = some cj → listZones cj = [])
    (hz : listZones c = z :: zs) :
    firstZoneMatch listZones cands = some z.id := by
  induction cands generalizing i with
  | nil => simp at hc
  | cons d rest ih =>
    cases i with
    | zero =>
      simp only [List.getElem?_cons_zero, Option.some.injEq] at hc
      subst hc
      simp [firstZoneMatch, hz]
    | succ n =>
      have hd : listZones d = [] := hempty 0 d (Nat.succ_pos n) (by simp)
      simp only [firstZoneMatch, hd]
      exact ih n (by simpa using hc)
        (fun j cj hj hcj => hempty (j + 1) cj (Nat.succ_lt_succ hj) (by simpa using hcj))

/-- Automatic zone resolution returns the zone of the first candidate,
in order of increasing i, whose exact-name query has a match. -/
theorem getZoneIDAutomatic_of_first_match (listZones : Bytes → List ZoneInfo)
    (domain : Bytes) (i : Nat) (c : Bytes) (z : ZoneInfo) (zs : List ZoneInfo)
    (hc : (zoneCandidates (splitDots domain))[i]? = some c)
    (hempty : ∀ j cj, j < i → (zoneCandidates (splitDots domain))[j]? = some cj →
      listZones cj = [])
    (hz : listZones c = z :: zs) :
    getZoneIDAutomatic listZones domain = some z.id := by
  have hlen : i < (zoneCandidates (splitDots domain)).length := by
    by_contra hnot
    push_neg at hnot
    rw [List.getElem?_eq_none hnot] at hc
    exact Option.noConfusion hc
  have hn : ¬ (splitDots domain).length < 2 := by
    simp only [zoneCandidates, List.length_map, List.length_range] at hlen
    omega
  unfold getZoneIDAutomatic
  rw [if_neg hn]
  exact firstZoneMatch_of_first listZones _ i c z zs hc hempty hz

/-- When the full domain itself is a zone, automatic resolution returns
it: it is candidate 0, the most specific one. -/
theorem getZoneIDAutomatic_full_domain (listZones : Bytes → List ZoneInfo)
    (domain : Bytes) (z : ZoneInfo) (zs : List ZoneInfo)
    (hlen : 2 ≤ (splitDots domain).length)
    (hz : listZones domain = z :: zs) :
    getZoneIDAutomatic listZones domain = some z.id := by
  have h0 : (zoneCandidates (splitDots domain))[0]? = some domain := by
    have hpos : 0 < (splitDots domain).length - 1 := by omega
    simp [zoneCandidates, joinDots_splitDots, hpos]
  exact getZoneIDAutomatic_of_first_match listZones domain 0 domain z zs h0
    (fun j cj hj _ => absurd hj (Nat.not_lt_zero j)) hz

/-- C7: the automatic zone-resolution phase tries the candidates
labels[i:] for i from 0 upward and returns the zone of the first
candidate whose exact-name query has at least one match; the full domain,
when itself a zone, is preferred over any parent; and for an account
holding exactly the zones example.com and sub.example.com, the domain
app.sub.example.com resolves to the zone of sub.example.com. -/
theorem getZoneIDAutomatic_most_specific_first :
    (∀ (listZones : Bytes → List ZoneInfo) (domain : Bytes) (i : Nat) (c : Bytes)
        (z : ZoneInfo) (zs : List ZoneInfo),
      (zoneCandidates (splitDots domain))[i]? = some c →
      (∀ j cj, j < i → (zoneCandidates (splitDots domain))[j]? = some cj →
        listZones cj = []) →
      listZones c = z :: zs →
      getZoneIDAutomatic listZones domain = some z.id) ∧
    (∀ (listZones : Bytes → List ZoneInfo) (domain : Bytes) (z : ZoneInfo)
        (zs : List ZoneInfo),
      2 ≤ (splitDots domain).length →
      listZones domain = z :: zs →
      getZoneIDAutomatic listZones domain = some z.id) ∧
    getZoneIDAutomatic twoZoneAccount appSubExampleCom = some subExampleZone.id := by
  refine ⟨?_, ?_, ?_⟩
  · intro listZones domain i c z zs hc hempty hz
    exact getZoneIDAutomatic_of_first_match listZones domain i c z zs hc hempty hz
  · intro listZones domain z zs hlen hz
    exact getZoneIDAutomatic_full_domain listZones domain z zs hlen hz
  · decide

/-- Witness for C7: a domain that is itself one of the account's zones
resolves to that zone through the preference part of the theorem. -/
theorem getZoneIDAutomatic_most_specific_first_witness :
    2 ≤ (splitDots subExampleCom).length ∧
    twoZoneAccount subExampleCom = subExampleZone :: [] ∧
    getZoneIDAutomatic twoZoneAccount subExampleCom = some subExampleZone.id :=
  ⟨by decide, by decide,
    getZoneIDAutomatic_most_specific_first.2.1 twoZoneAccount subExampleCom
      subExampleZone [] (by decide) (by decide)⟩

/-- C1 counterexample: on a slot whose current/ directory holds a
certificate, an issuance attempt that fails at the issuance service does
not leave current/ untouched — the certificate file has already been
moved away by the archiving step, which runs before the issuance service
is invoked. -/
theorem generateCertificate_failed_issuance_empties_current :
    (generateCertificate occupiedSlot true none [] 0 respNone none true true true).ok = false ∧
    (generateCertificate occupiedSlot true none [] 0 respNone none
        true true true).state.current.cert = none ∧
    occupiedSlot.current.cert = some sampleLeaf := by
  decide

/-- C1 amended: archiving runs after the renewal decision but before the
issuance service is invoked, never after it; consequently an issuance
attempt that fails at the issuance service returns an error with the slot
already in its archived state (every current file moved into archive/),
and new files are written only after a successful issuance. -/
theorem generateCertificate_archives_before_issuance
    (s : SlotState) (forceRenew : Bool) (parsed : Option (List Bytes × Int))
    (domains : List Bytes) (now : Int) (resp : PromptResponses)
    (writeOk metaOk cleanupOk : Bool)
    (hact : (determineAction forceRenew s.current.cert.isSome parsed domains now resp).1 ≠
      CertificateAction.skip) :
    generateCertificate s forceRenew parsed domains now resp none writeOk metaOk cleanupOk =
      { ok := false, state := archiveOldCertificate s
        events := [GenEvent.archived, GenEvent.obtainAttempted] } := by
  unfold generateCertificate
  simp [hact]

/-- Witness for the amended C1: a forced renewal on an occupied slot
whose issuance fails ends with the slot archived and an error reported. -/
theorem generateCertificate_archives_before_issuance_witness :
    ((determineAction true occupiedSlot.current.cert.isSome none [] 0 respNone).1 ≠
      CertificateAction.skip) ∧
    generateCertificate occupiedSlot true none [] 0 respNone none true true true =
      { ok := false, state := archiveOldCertificate occupiedSlot
        events := [GenEvent.archived, GenEvent.obtainAttempted] } :=
  ⟨by decide,
    generateCertificate_archives_before_issuance occupiedSlot true none [] 0 respNone
      true true true (by decide)⟩

/-- C9: once the issuance proceeds and the issuance service succeeds,
the operation reports success exactly when the primary file writes
succeed — a primary file-save failure is fatal, while metadata-save and
archive-cleanup failures leave the operation reporting success. -/
theorem generateCertificate_ok_iff_primary_writes
    (s : SlotState) (forceRenew : Bool) (parsed : Option (List Bytes × Int))
    (domains : List Bytes) (now : Int) (resp : PromptResponses)
    (cert : CertificateResult) (writeOk metaOk cleanupOk : Bool)
    (hact : (determineAction forceRenew s.current.cert.isSome parsed domains now resp).1 ≠
      CertificateAction.skip) :
    (generateCertificate s forceRenew parsed domains now resp (some cert)
        writeOk metaOk cleanupOk).ok = writeOk := by
  unfold generateCertificate
  simp only [hact, if_neg]
  cases writeOk <;> simp

/-- Witness for C9: with a failing metadata write and a failing archive
cleanup but successful file writes, the operation still reports
success. -/
theorem generateCertificate_ok_iff_primary_writes_witness :
    ((determineAction true occupiedSlot.current.cert.isSome none [] 0 respNone).1 ≠
      CertificateAction.skip) ∧
    (generateCertificate occupiedSlot true none [] 0 respNone (some sampleIssuance)
        true false false).ok = true :=
  ⟨by decide,
    generateCertificate_ok_iff_primary_writes occupiedSlot true none [] 0 respNone
      sampleIssuance true false false (by decide)⟩

/-- C3 counterexample: a successful renewal of a slot whose prior
metadata is readable with counter 0 persists counter 0 again, not the
prior counter plus one — the generate flow rewrites the counter to 0
unconditionally and never calls UpdateRenewalCount. -/
theorem generateCertificate_renewal_resets_counter :
    (generateCertificate emptySlot true none [] 0 respNone (some sampleIssuance)
        true true true).state.current.info = some 0 ∧
    (generateCertificate
        (generateCertificate emptySlot true none [] 0 respNone (some sampleIssuance)
          true true true).state
        true none [] 0 respNone (some sampleIssuance)
        true true true).state.current.info = some 0 ∧
    (generateCertificate
        (generateCertificate emptySlot true none [] 0 respNone (some sampleIssuance)
          true true true).state
        true none [] 0 respNone (some sampleIssuance)
        true true true).state.current.info ≠ some (0 + 1) := by
  decide

/-- C3 amended: the persisted renewal counter is 0 after the first
successful issuance and after every subsequent successful renewal made
through the generate flow, which writes counter 0 unconditionally and
never invokes UpdateRenewalCount; UpdateRenewalCount itself increments a
readable counter by one and leaves an unreadable metadata file unchanged.
The persisted counter is thus trivially non-decreasing (constant 0). -/
theorem generateCertificate_counter_always_zero
    (s : SlotState) (forceRenew : Bool) (parsed : Option (List Bytes × Int))
    (domains : List Bytes) (now : Int) (resp : PromptResponses)
    (cert : CertificateResult) (cleanupOk : Bool)
    (hact : (determineAction forceRenew s.current.cert.isSome parsed domains now resp).1 ≠
      CertificateAction.skip) :
    (generateCertificate s forceRenew parsed domains now resp (some cert)
        true true cleanupOk).state.current.info = some 0 ∧
    (∀ c, updateRenewalCount (some c) = some (c + 1)) ∧
    updateRenewalCount none = none := by
  refine ⟨?_, fun c => rfl, rfl⟩
  unfold generateCertificate
  simp [hact]

/-- Witness for the amended C3: a forced renewal of an occupied slot
persists counter 0. -/
theorem generateCertificate_counter_always_zero_witness :
    ((determineAction true occupiedSlot.current.cert.isSome none [] 0 respNone).1 ≠
      CertificateAction.skip) ∧
    (generateCertificate occupiedSlot true none [] 0 respNone (some sampleIssuance)
        true true true).state.current.info = some 0 :=
  ⟨by decide,
    (generateCertificate_counter_always_zero occupiedSlot true none [] 0 respNone
      sampleIssuance true (by decide)).1⟩

/-- C8: cleanUp on a token that was never recorded is a successful no-op
with no provider interaction (no zone resolution, no API call) and an
unchanged record table. -/
theorem cleanUp_unknown_token_noop
    (table : RecordTable) (domain token : Bytes) (zoneRes : Option Bytes)
    (deleteOk : Bool)
    (h : lookupRecord table token = none) :
    cleanUp table domain token zoneRes deleteOk =
      { ok := true, table := table, calls := [] } := by
  unfold cleanUp
  rw [h]

/-- Witness for C8: cleaning up a token on a fresh provider instance. -/
theorem cleanUp_unknown_token_noop_witness :
    lookupRecord [] sampleToken = none ∧
    cleanUp [] exampleCom sampleToken (some zoneIdOne) true =
      { ok := true, table := [], calls := [] } :=
  ⟨rfl, cleanUp_unknown_token_noop [] exampleCom sampleToken (some zoneIdOne) true rfl⟩

/-- Looking up a token right after inserting it yields the inserted
record identifier. -/
theorem lookupRecord_insertRecord (t : RecordTable) (k v : Bytes) :
    lookupRecord (insertRecord t k v) k = some v := by
  induction t with
  | nil => simp [insertRecord, lookupRecord]
  | cons kv rest ih =>
    obtain ⟨k0, v0⟩ := kv
    cases hk : (k0 == k) with
    | true => simp [insertRecord, lookupRecord, hk]
    | false => simp [insertRecord, lookupRecord, hk, ih]

/-- Inserting a token that is absent appends its binding. -/
theorem insertRecord_of_lookup_none (t : RecordTable) (k v : Bytes)
    (h : lookupRecord t k = none) : insertRecord t k v = t ++ [(k, v)] := by
  induction t with
  | nil => rfl
  | cons kv rest ih =>
    obtain ⟨k0, v0⟩ := kv
    cases hk : (k0 == k) with
    | true => simp [lookupRecord, hk] at h
    | false =>
      simp only [lookupRecord, hk] at h
      have h2 : lookupRecord rest k = none := by simpa using h
      simp [insertRecord, hk, ih h2]

/-- Re-inserting the same token replaces its binding. -/
theorem insertRecord_insertRecord (t : RecordTable) (k v w : Bytes) :
    insertRecord (insertRecord t k v) k w = insertRecord t k w := by
  induction t with
  | nil => simp [insertRecord]
  | cons kv rest ih =>
    obtain ⟨k0, v0⟩ := kv
    cases hk : (k0 == k) with
    | true => simp [insertRecord, hk]
    | false => simp [insertRecord, hk, ih]

/-- Erasing a token that was freshly inserted into a table where it was
absent restores the original table. -/
theorem eraseRecord_insertRecord_of_lookup_none (t : RecordTable) (k v : Bytes)
    (h : lookupRecord t k = none) : eraseRecord (insertRecord t k v) k = t := by
  induction t with
  | nil => simp [insertRecord, eraseRecord]
  | cons kv rest ih =>
    obtain ⟨k0, v0⟩ := kv
    cases hk : (k0 == k) with
    | true => simp [lookupRecord, hk] at h
    | false =>
      simp only [lookupRecord, hk] at h
      simp only [insertRecord, hk, eraseRecord]
      simp only [Bool.false_eq_true, if_false, List.cons.injEq, true_and]
      exact ih (by simpa using h)

/-- C10: when present succeeds twice with the same token (the provider
assigning record identifiers id1 then id2) without an intervening
cleanUp, the table keeps only id2 for that token; the subsequent cleanUp
deletes exactly the second record and restores the table; and no
provider call in the whole sequence deletes the record created first. -/
theorem present_twice_cleanUp_deletes_second_only
    (table0 : RecordTable) (domain token zoneID id1 id2 : Bytes)
    (hfresh : lookupRecord table0 token = none)
    (hne : id1 ≠ id2) :
    lookupRecord
      (present (present table0 domain token (some zoneID) (some id1)).table
        domain token (some zoneID) (some id2)).table token = some id2 ∧
    cleanUp
      (present (present table0 domain token (some zoneID) (some id1)).table
        domain token (some zoneID) (some id2)).table
      domain token (some zoneID) true =
      { ok := true, table := table0
        calls := [ProviderCall.zoneResolve domain,
                  ProviderCall.deleteRecord zoneID id2] } ∧
    (∀ z, ProviderCall.deleteRecord z id1 ∉
      (present table0 domain token (some zoneID) (some id1)).calls ++
      (present (present table0 domain token (some zoneID) (some id1)).table
        domain token (some zoneID) (some id2)).calls ++
      (cleanUp
        (present (present table0 domain token (some zoneID) (some id1)).table
          domain token (some zoneID) (some id2)).table
        domain token (some zoneID) true).calls) := by
  have htab2 : (present (present table0 domain token (some zoneID) (some id1)).table
      domain token (some zoneID) (some id2)).table = insertRecord table0 token id2 := by
    show insertRecord (insertRecord table0 token id1) token id2 = insertRecord table0 token id2
    exact insertRecord_insertRecord table0 token id1 id2
  have hlook : lookupRecord
      (present (present table0 domain token (some zoneID) (some id1)).table
        domain token (some zoneID) (some id2)).table token = some id2 := by
    rw [htab2]
    exact lookupRecord_insertRecord table0 token id2
  have hclean : cleanUp
      (present (present table0 domain token (some zoneID) (some id1)).table
        domain token (some zoneID) (some id2)).table
      domain token (some zoneID) true =
      { ok := true, table := table0
        calls := [ProviderCall.zoneResolve domain,
                  ProviderCall.deleteRecord zoneID id2] } := by
    unfold cleanUp
    rw [hlook, htab2, eraseRecord_insertRecord_of_lookup_none table0 token id2 hfresh]
    rfl
  refine ⟨hlook, hclean, ?_⟩
  intro z
  rw [hclean]
  simp [present, List.mem_append, hne]

/-- Witness for C10: a fresh provider instance, two successful present
calls with distinct assigned record identifiers, then cleanUp. -/
theorem present_twice_cleanUp_deletes_second_only_witness :
    lookupRecord [] sampleToken = none ∧ recordIdOne ≠ recordIdTwo ∧
    (lookupRecord
      (present (present [] exampleCom sampleToken (some zoneIdOne) (some recordIdOne)).table
        exampleCom sampleToken (some zoneIdOne) (some recordIdTwo)).table sampleToken =
      some recordIdTwo ∧
    cleanUp
      (present (present [] exampleCom sampleToken (some zoneIdOne) (some recordIdOne)).table
        exampleCom sampleToken (some zoneIdOne) (some recordIdTwo)).table
      exampleCom sampleToken (some zoneIdOne) true =
      { ok := true, table := []
        calls := [ProviderCall.zoneResolve exampleCom,
                  ProviderCall.deleteRecord zoneIdOne recordIdTwo] } ∧
    (∀ z, ProviderCall.deleteRecord z recordIdOne ∉
      (present [] exampleCom sampleToken (some zoneIdOne) (some recordIdOne)).calls ++
      (present (present [] exampleCom sampleToken (some zoneIdOne) (some recordIdOne)).table
        exampleCom sampleToken (some zoneIdOne) (some recordIdTwo)).calls ++
      (cleanUp
        (present (present [] exampleCom sampleToken (some zoneIdOne) (some recordIdOne)).table
          exampleCom sampleToken (some zoneIdOne) (some recordIdTwo)).table
        exampleCom sampleToken (some zoneIdOne) true).calls)) :=
  ⟨rfl, by decide,
    present_twice_cleanUp_deletes_second_only [] exampleCom sampleToken zoneIdOne
      recordIdOne recordIdTwo rfl (by decide)⟩

end Flarecert
